import Mathlib

/-!
Verification of the streaming session engine of the `online-filtering`
application (GUI host that streams a generated waveform to a serial filtering
device and receives the filtered result).

The Rust sources are embedded shallowly:
* 32-bit floats travel on the wire as their 4 little-endian bytes; samples are
  modelled by their 32-bit bit patterns (`Nat < 2^32`), and `f32::to_le_bytes` /
  `f32::from_le_bytes` by `toLeBytes` / `fromLeBytes` on those patterns.
* the transmitter and receiver loops (`src/gui/src/app/filter/workers.rs`)
  become recursive functions over the finite trace of I/O outcomes they see;
* the graph window logic (`src/gui/src/app/filter/graph.rs`) and the session
  state machine (`src/gui/src/app/filter.rs`) become pure transition functions;
  `unreachable!()` / `expect` panics are modelled as `Option.none`.
-/

namespace OnlineFiltering

/-- Little-endian byte encoding of a 32-bit word
(`u32::to_le_bytes`, and `f32::to_le_bytes` on the float's bit pattern). -/
def toLeBytes (w : Nat) : List Nat :=
  [w % 2 ^ 8, w / 2 ^ 8 % 2 ^ 8, w / 2 ^ 16 % 2 ^ 8, w / 2 ^ 24 % 2 ^ 8]

/-- Little-endian decoding of a 4-byte frame
(`u32::from_le_bytes`, and `f32::from_le_bytes` giving the float's bit pattern). -/
def fromLeBytes : List Nat → Nat
  | [b0, b1, b2, b3] => b0 + 2 ^ 8 * b1 + 2 ^ 16 * b2 + 2 ^ 24 * b3
  | _ => 0

/-- Bit pattern of the end-of-transmission marker (`f32::NAN`, a quiet NaN). -/
def EOT_WORD : Nat := 0x7FC00000

/-- `EOT` (main.rs line 20): the 4 little-endian bytes of `0x7FC00000`. -/
def EOT : List Nat := toLeBytes EOT_WORD

/-- `MIN_WINDOW_SIZE` (main.rs line 14). -/
def MIN_WINDOW_SIZE : Nat := 32

/-- `STREAMING_WINDOW_SIZE` (main.rs line 16): streaming look-back K. -/
def STREAMING_WINDOW_SIZE : Nat := 384

/-- A 4-byte frame is well formed when it has exactly 4 bytes, each below 256
(`read_exact` into `[u8; 4]` always yields such a buffer). -/
def wfFrame (f : List Nat) : Bool :=
  f.length == 4 && f.all (· < 2 ^ 8)

/-- A read outcome is well formed when, if it is a frame, that frame is. -/
def wfRead : Option (List Nat) → Bool
  | none => true
  | some f => wfFrame f

/-- Cancellation timing for the one-shot flag: `some k` means the flag flips to
true between loop iterations `k - 1` and `k` (so the check at every iteration
`i ≥ k` reads true; `k = 0` is "before any iteration"); `none` means never. -/
def cancelled (cancelAt : Option Nat) (i : Nat) : Bool :=
  match cancelAt with
  | some k => decide (k ≤ i)
  | none => false

/-- The payload write attempts of the `transmitter` loop (workers.rs lines
34-44): iteration `i` first checks the cancellation flag and breaks if set,
otherwise attempts `write_all` of the sample's 4 little-endian bytes;
`writeOk i = false` means that `write_all` returned an error, which breaks the
loop (after the failed attempt, which is still recorded here). -/
def txLoop (cancelAt : Option Nat) (writeOk : Nat → Bool) :
    List Nat → Nat → List (List Nat)
  | [], _ => []
  | s :: rest, i =>
    if cancelled cancelAt i then []
    else
      toLeBytes s :: (if writeOk i then txLoop cancelAt writeOk rest (i + 1) else [])

/-- The write trace of one transmitter run: the payload frames attempted in the
loop, and how many sentinel (`EOT`) write attempts follow the loop. -/
structure TxTrace where
  payload : List (List Nat)
  sentinelWrites : Nat
deriving Repr, DecidableEq

/-- `transmitter` (workers.rs lines 33-50): runs the payload loop over the
samples (given as 32-bit float bit patterns), then unconditionally attempts
exactly one `write_all(EOT)`, whatever ended the loop. -/
def transmitter (samples : List Nat) (cancelAt : Option Nat)
    (writeOk : Nat → Bool) : TxTrace :=
  { payload := txLoop cancelAt writeOk samples 0, sentinelWrites := 1 }

theorem txLoop_eq_map_take (cancelAt : Option Nat) (writeOk : Nat → Bool) :
    ∀ (samples : List Nat) (i : Nat),
      ∃ m ≤ samples.length,
        txLoop cancelAt writeOk samples i = (samples.take m).map toLeBytes := by
  intro samples
  induction samples with
  | nil =>
      intro i
      exact ⟨0, Nat.le_refl 0, rfl⟩
  | cons s rest ih =>
      intro i
      by_cases hc : cancelled cancelAt i
      · exact ⟨0, Nat.zero_le _, by simp [txLoop, hc]⟩
      · by_cases hw : writeOk i
        · obtain ⟨m, hm, heq⟩ := ih (i + 1)
          refine ⟨m + 1, Nat.succ_le_succ hm, ?_⟩
          simp [txLoop, hc, hw, heq]
        · exact ⟨1, Nat.succ_le_succ (Nat.zero_le _), by simp [txLoop, hc, hw]⟩

/-- **C1.** For every input series of length N ≥ 1 and every cancellation
timing (flag true before any iteration, between iterations, or never) and
every pattern of payload-write outcomes, the transmitter attempts at most N
payload frames, these frames are the 4 little-endian bytes of the 32-bit
floats of a prefix of the input series in input order, and exactly one
sentinel (`EOT`) write is attempted after the loop — never zero and never
more than one, even when a payload write error aborts the loop early. -/
theorem C1_transmitter_frames (samples : List Nat) (cancelAt : Option Nat)
    (writeOk : Nat → Bool) (hN : 1 ≤ samples.length) :
    (transmitter samples cancelAt writeOk).payload.length ≤ samples.length ∧
    (∃ m ≤ samples.length,
      (transmitter samples cancelAt writeOk).payload
        = (samples.take m).map toLeBytes) ∧
    (transmitter samples cancelAt writeOk).sentinelWrites = 1 := by
  obtain ⟨m, hm, heq⟩ := txLoop_eq_map_take cancelAt writeOk samples 0
  refine ⟨?_, ⟨m, hm, heq⟩, rfl⟩
  calc (transmitter samples cancelAt writeOk).payload.length
      = ((samples.take m).map toLeBytes).length := by rw [transmitter]; rw [heq]
    _ = (samples.take m).length := List.length_map _ _
    _ ≤ samples.length := by
        rw [List.length_take]
        exact min_le_right _ _

theorem C1_transmitter_frames_witness :
    1 ≤ ([42, 7] : List Nat).length ∧
    ((transmitter [42, 7] (some 1) (fun _ => true)).payload.length
        ≤ ([42, 7] : List Nat).length ∧
      (∃ m ≤ ([42, 7] : List Nat).length,
        (transmitter [42, 7] (some 1) (fun _ => true)).payload
          = (([42, 7] : List Nat).take m).map toLeBytes) ∧
      (transmitter [42, 7] (some 1) (fun _ => true)).sentinelWrites = 1) :=
  ⟨by decide, C1_transmitter_frames [42, 7] (some 1) (fun _ => true) (by decide)⟩

/-- `receiver` (workers.rs lines 52-70): repeatedly `read_exact` a 4-byte
frame; a read error (or, equivalently for the model, exhaustion of the finite
outcome trace — the next read would time out) breaks the loop; a frame equal
to `EOT` breaks the loop; any other frame is decoded with `from_le_bytes` and
pushed onto the shared output buffer. Returns the final buffer contents (the
pushed bit patterns, in arrival order). -/
def receiver : List (Option (List Nat)) → List Nat
  | [] => []
  | none :: _ => []
  | some f :: rest =>
    if f = EOT then [] else fromLeBytes f :: receiver rest

/-- `spawn_receiver` (workers.rs lines 21-31): allocates the shared output
vector with `Vec::with_capacity capacity` and runs `receiver` over it. The
capacity only pre-sizes the allocation; it does not bound the number of
pushes, so it does not influence the resulting contents. -/
def spawn_receiver (capacity : Nat) (reads : List (Option (List Nat))) :
    List Nat :=
  receiver reads

/-- The frames of an incoming read trace that precede its termination point
(the first read error, trace exhaustion, or `EOT` frame): exactly the frames
the receiver loop pushes. -/
def framesBeforeTermination : List (Option (List Nat)) → List (List Nat)
  | [] => []
  | none :: _ => []
  | some f :: rest =>
    if f = EOT then [] else f :: framesBeforeTermination rest

theorem receiver_eq_map_frames (reads : List (Option (List Nat))) :
    receiver reads = (framesBeforeTermination reads).map fromLeBytes := by
  induction reads with
  | nil => rfl
  | cons r rest ih =>
      cases r with
      | none => rfl
      | some f =>
          by_cases h : f = EOT
          · simp [receiver, framesBeforeTermination, h]
          · simp [receiver, framesBeforeTermination, h, ih]

/-- **C2 (counterexample).** The claim "for every sequence of frames arriving
at the receiver, the shared output buffer's length never exceeds N (the input
series length, used as the buffer's initial capacity)" fails on the code: with
N = 1 the device may deliver two non-sentinel frames (here two encodings of
the pattern 0) and the receiver pushes both, so the buffer reaches length
2 > 1. `Vec::with_capacity` does not bound `push`. -/
theorem C2_buffer_bound_counterexample :
    ¬ (spawn_receiver 1 [some (toLeBytes 0), some (toLeBytes 0)]).length ≤ 1 := by
  decide

/-- **C2 (amended).** The output buffer's elements are exactly the decoded
frames that precede the termination point of the arrival trace (first read
error or sentinel frame), in strict arrival order; consequently, whenever at
most N frames precede termination — which the device-side protocol, not the
receiver, guarantees — the buffer's length never exceeds N. -/
theorem C2_buffer_contents (N : Nat) (reads : List (Option (List Nat)))
    (h : (framesBeforeTermination reads).length ≤ N) :
    receiver reads = (framesBeforeTermination reads).map fromLeBytes ∧
    (receiver reads).length ≤ N := by
  refine ⟨receiver_eq_map_frames reads, ?_⟩
  rw [receiver_eq_map_frames reads, List.length_map]
  exact h

theorem C2_buffer_contents_witness :
    (framesBeforeTermination [some (toLeBytes 5), some EOT]).length ≤ 2 ∧
    (receiver [some (toLeBytes 5), some EOT]
        = (framesBeforeTermination [some (toLeBytes 5), some EOT]).map fromLeBytes ∧
      (receiver [some (toLeBytes 5), some EOT]).length ≤ 2) :=
  ⟨by decide, C2_buffer_contents 2 [some (toLeBytes 5), some EOT] (by decide)⟩

theorem fromLeBytes_toLeBytes_of_wf (f : List Nat) (hf : wfFrame f = true) :
    toLeBytes (fromLeBytes f) = f := by
  match f, hf with
  | [b0, b1, b2, b3], hf =>
      simp only [wfFrame, List.all_cons, List.all_nil, Bool.and_true,
        Bool.and_eq_true, beq_iff_eq, decide_eq_true_eq] at hf
      obtain ⟨-, h0, h1, h2, h3⟩ := hf
      simp only [toLeBytes, fromLeBytes, List.cons.injEq, and_true]
      refine ⟨?_, ?_, ?_, ?_⟩ <;> omega

/-- **C9.** The receive buffer never contains a value whose 4-byte
little-endian encoding equals the sentinel pattern `EOT` (`0x7FC00000`): a
payload frame that carries exactly the sentinel's bit pattern terminates
reception instead of being appended (first conjunct), so for every
well-formed arrival trace no stored value encodes to the sentinel (second
conjunct) — the device cannot deliver that particular value as data. -/
theorem C9_no_sentinel_value_stored (reads : List (Option (List Nat)))
    (hwf : reads.all wfRead = true) :
    (∀ rest, receiver (some EOT :: rest) = []) ∧
    ∀ w ∈ receiver reads, toLeBytes w ≠ EOT := by
  refine ⟨fun rest => by simp [receiver], ?_⟩
  induction reads with
  | nil => intro w hw; simp [receiver] at hw
  | cons r rest ih =>
      simp only [List.all_cons, Bool.and_eq_true] at hwf
      cases r with
      | none => intro w hw; simp [receiver] at hw
      | some f =>
          intro w hw
          by_cases h : f = EOT
          · simp [receiver, h] at hw
          · simp only [receiver, if_neg h, List.mem_cons] at hw
            rcases hw with hw | hw
            · rw [hw, fromLeBytes_toLeBytes_of_wf f hwf.1]
              exact h
            · exact ih hwf.2 w hw

theorem C9_no_sentinel_value_stored_witness :
    ([some (toLeBytes 3), some EOT] : List (Option (List Nat))).all wfRead = true ∧
    ((∀ rest, receiver (some EOT :: rest) = []) ∧
      ∀ w ∈ receiver [some (toLeBytes 3), some EOT], toLeBytes w ≠ EOT) :=
  ⟨by decide, C9_no_sentinel_value_stored [some (toLeBytes 3), some EOT] (by decide)⟩

/-- **C5.** If the cancellation flag is already true before the transmitter
performs its first flag check (`cancelAt = some 0`), the run attempts zero
payload frames and exactly one sentinel write, for every input series and
every pattern of write outcomes. -/
theorem C5_cancel_before_first_check (samples : List Nat) (writeOk : Nat → Bool) :
    transmitter samples (some 0) writeOk
      = { payload := [], sentinelWrites := 1 } := by
  cases samples with
  | nil => rfl
  | cons s rest => simp [transmitter, txLoop, cancelled]

/-- Graph display mode (graph.rs lines 18-28): `Streaming`, or `Static` with a
window size and an offset from the first sample (both `usize`). -/
inductive Mode where
  | Streaming : Mode
  | Static (size offset : Nat) : Mode
deriving Repr, DecidableEq

/-- Graph messages (graph.rs lines 11-15). The slider payloads are `f64`;
they are modelled as rationals. -/
inductive GraphMessage where
  | SwitchMode : GraphMessage
  | SizeUpdated (value : ℚ) : GraphMessage
  | OffsetUpdated (value : ℚ) : GraphMessage

/-- The `value as usize` cast in `assign` (graph.rs lines 256-261): truncation
toward zero, saturating at the bounds of `usize` (64-bit). On the negative
side truncation and flooring saturate to the same value, 0, so the floor is
used; slider payloads are finite, so NaN does not arise. -/
def usizeOfF64 (value : ℚ) : Nat :=
  min (Int.toNat value.floor) (2 ^ 64 - 1)

/-- `Graph::update` (graph.rs lines 63-92). `SwitchMode` toggles between
`Streaming` and `Static { size: MIN_WINDOW_SIZE, offset: 0 }`; `SizeUpdated` /
`OffsetUpdated` store the cast payload unconditionally via `assign`, with no
clamping; receiving either in `Streaming` mode hits `unreachable!()`,
modelled as `none`. -/
def Graph.update : Mode → GraphMessage → Option Mode
  | Mode.Streaming, GraphMessage.SwitchMode =>
      some (Mode.Static MIN_WINDOW_SIZE 0)
  | Mode.Static _ _, GraphMessage.SwitchMode => some Mode.Streaming
  | Mode.Static _ offset, GraphMessage.SizeUpdated v =>
      some (Mode.Static (usizeOfF64 v) offset)
  | Mode.Static size _, GraphMessage.OffsetUpdated v =>
      some (Mode.Static size (usizeOfF64 v))
  | Mode.Streaming, _ => none

/-- Iterated `Graph::update`; `none` as soon as one step panics. -/
def Graph.updates (m : Mode) : List GraphMessage → Option Mode
  | [] => some m
  | msg :: rest =>
    match Graph.update m msg with
    | none => none
    | some m' => Graph.updates m' rest

/-- The spec's stored-state invariant for `Static` mode (vacuous in
`Streaming` mode): the stored size is at least `MIN_WINDOW_SIZE`. -/
def staticSizeInv : Mode → Prop
  | Mode.Streaming => True
  | Mode.Static size _ => MIN_WINDOW_SIZE ≤ size

/-- **C3 (counterexample).** The claim that after any sequence of
`SizeUpdated`/`OffsetUpdated`/`SwitchMode` messages a `Static` state keeps
`min_window_size ≤ size` (no stored size below `min_window_size`, no stored
offset beyond the maintained bound) fails on the code: `Graph::update` stores
the cast payload with no clamping, so the single message `SizeUpdated 5`
applied to the freshly-switched state `Static {size: 32, offset: 0}` stores
size 5 < 32 = `MIN_WINDOW_SIZE`. -/
theorem C3_no_clamping_counterexample :
    Graph.update (Mode.Static MIN_WINDOW_SIZE 0) (GraphMessage.SizeUpdated 5)
        = some (Mode.Static 5 0) ∧
    ¬ MIN_WINDOW_SIZE ≤ 5 := by
  constructor
  · show some (Mode.Static (usizeOfF64 5) 0) = some (Mode.Static 5 0)
    decide
  · decide

/-- **C3 (amended).** `Graph::update` stores slider payloads truncated but
unclamped; the bounds live only in the slider ranges built by `Graph::view`.
Hence: an offset is never negative (it is a `usize`), and starting from any
state satisfying `min_window_size ≤ size` (e.g. the state `SwitchMode`
creates), any sequence of messages whose `SizeUpdated` payloads cast to at
least `min_window_size` — which the size slider's lower bound guarantees —
preserves `min_window_size ≤ size` in `Static` mode. -/
theorem C3_static_invariant (m₀ : Mode) (msgs : List GraphMessage) (m' : Mode)
    (h₀ : staticSizeInv m₀)
    (hsz : ∀ v, GraphMessage.SizeUpdated v ∈ msgs
      → MIN_WINDOW_SIZE ≤ usizeOfF64 v)
    (hrun : Graph.updates m₀ msgs = some m') :
    staticSizeInv m' ∧
    ∀ size offset, m' = Mode.Static size offset → 0 ≤ offset := by
  refine ⟨?_, fun _ offset _ => Nat.zero_le offset⟩
  induction msgs generalizing m₀ with
  | nil =>
      simp only [Graph.updates, Option.some.injEq] at hrun
      exact hrun ▸ h₀
  | cons msg rest ih =>
      simp only [Graph.updates] at hrun
      match hstep : Graph.update m₀ msg with
      | none => rw [hstep] at hrun; exact absurd hrun (by simp)
      | some m₁ =>
          rw [hstep] at hrun
          refine ih m₁ ?_ (fun v hv => hsz v (List.mem_cons_of_mem _ hv)) hrun
          cases m₀ with
          | Streaming =>
              cases msg with
              | SwitchMode =>
                  simp only [Graph.update, Option.some.injEq] at hstep
                  rw [← hstep]
                  exact Nat.le_refl _
              | SizeUpdated v => exact absurd hstep (by simp [Graph.update])
              | OffsetUpdated v => exact absurd hstep (by simp [Graph.update])
          | Static size offset =>
              cases msg with
              | SwitchMode =>
                  simp only [Graph.update, Option.some.injEq] at hstep
                  rw [← hstep]
                  trivial
              | SizeUpdated v =>
                  simp only [Graph.update, Option.some.injEq] at hstep
                  rw [← hstep]
                  exact hsz v (List.mem_cons_self _ _)
              | OffsetUpdated v =>
                  simp only [Graph.update, Option.some.injEq] at hstep
                  rw [← hstep]
                  exact h₀

theorem C3_static_invariant_witness :
    staticSizeInv (Mode.Static 40 7) ∧
    ∀ size offset, Mode.Static 40 7 = Mode.Static size offset → 0 ≤ offset :=
  C3_static_invariant (Mode.Static MIN_WINDOW_SIZE 0)
    [GraphMessage.SizeUpdated 40, GraphMessage.OffsetUpdated 7]
    (Mode.Static 40 7)
    (le_refl MIN_WINDOW_SIZE)
    (fun v hv => by
      rcases List.mem_cons.mp hv with h | h
      · injection h with h'
        subst h'
        decide
      · rcases List.mem_cons.mp h with h' | h'
        · exact absurd h' (by simp)
        · exact absurd h' (List.not_mem_nil _))
    (by decide)

/-- `Graph::build_chart` (graph.rs lines 184-188), `Streaming` arm: with a
non-empty buffer of length `total`, `start = total - total.min(K)` and
`end = total - 1` with `K = STREAMING_WINDOW_SIZE`. -/
def streamingWindow (total : Nat) : Nat × Nat :=
  (total - min total STREAMING_WINDOW_SIZE, total - 1)

/-- `Graph::build_chart` (graph.rs lines 190-193), `Static` arm:
`start = total.min(offset)` and `end = (start + size).min(total - 1)`. -/
def staticWindow (size offset total : Nat) : Nat × Nat :=
  (min total offset, min (min total offset + size) (total - 1))

/-- `Graph::view` (graph.rs line 121), `Static` arm: the slider bound
`total_samples = filtered.len() - 1`, a `usize` subtraction that underflows
(panics in a debug build, modelled `none`) when the buffer is empty. -/
def viewTotalSamples (len : Nat) : Option Nat :=
  if len = 0 then none else some (len - 1)

/-- **C4.** The window selector computes, for `Streaming` mode with buffer
length `total` and look-back `K = 384`, the closed index range
`[max(0, total - K), total - 1]`; for `Static {size, offset}` it computes
`start = min(offset, total)`, `end = min(start + size, total - 1)`.
Concretely, `total = 1000` yields the streaming window `[616, 999]`, and
`Static {size: 100, offset: 50}` with `total = 1000` yields `(50, 150)` —
the half-open slice bound `[50, 150)` used on the series. -/
theorem C4_window_computation :
    (∀ total : Nat,
      (streamingWindow total).1
          = Int.toNat (max 0 ((total : ℤ) - STREAMING_WINDOW_SIZE)) ∧
      (streamingWindow total).2 = total - 1) ∧
    (∀ size offset total : Nat,
      staticWindow size offset total
        = (min offset total, min (min offset total + size) (total - 1))) ∧
    streamingWindow 1000 = (616, 999) ∧
    staticWindow 100 50 1000 = (50, 150) := by
  refine ⟨fun total => ⟨?_, rfl⟩, fun size offset total => ?_, by decide, by decide⟩
  · simp only [streamingWindow, STREAMING_WINDOW_SIZE]
    omega
  · simp only [staticWindow, Nat.min_comm total offset]

/-- **C10 (counterexample).** The claim asserts that the Static-mode chart
indices satisfy `start ≤ end`, "in particular when `offset ≥ total`, where
`start = total` and `end = total - 1`" — but `total > total - 1` for
`total ≥ 1`, so in exactly that case the computed indices are out of order:
with `total = 5`, `offset = 7`, `size = 3` the code computes `start = 5`,
`end = 4`, and the slice `time[5..4]` would panic rather than be in bounds. -/
theorem C10_static_bounds_counterexample :
    (staticWindow 3 7 5).1 = 5 ∧ (staticWindow 3 7 5).2 = 4 ∧
    ¬ (staticWindow 3 7 5).1 ≤ (staticWindow 3 7 5).2 := by
  decide

/-- **C10 (amended).** For a non-empty buffer (`total ≥ 1`) and an offset
below `total` — the regime the offset slider maintains, since its upper bound
is `total - 1` and the buffer only grows — the Static-mode display
computations are panic-free: the slider bound `total_samples = len - 1` does
not underflow, and the chart's indices satisfy `start = offset`,
`start ≤ end` and `end ≤ total - 1`, so the slices `[start..end]` of the
time, input and output series are in bounds for any series of length at
least `total`. When instead `offset ≥ total`, the code computes
`start = total = end + 1`, out of order (see the counterexample). -/
theorem C10_static_display_safe (size offset total : Nat)
    (h1 : 1 ≤ total) (h2 : offset < total) :
    viewTotalSamples total = some (total - 1) ∧
    (staticWindow size offset total).1 = offset ∧
    (staticWindow size offset total).1 ≤ (staticWindow size offset total).2 ∧
    (staticWindow size offset total).2 ≤ total - 1 := by
  simp only [viewTotalSamples, staticWindow]
  refine ⟨by rw [if_neg (by omega)], ?_, ?_, ?_⟩ <;> simp <;> omega

theorem C10_static_display_safe_witness :
    (1 ≤ 1000 ∧ 50 < 1000) ∧
    (viewTotalSamples 1000 = some 999 ∧
      (staticWindow 100 50 1000).1 = 50 ∧
      (staticWindow 100 50 1000).1 ≤ (staticWindow 100 50 1000).2 ∧
      (staticWindow 100 50 1000).2 ≤ 999) :=
  ⟨⟨by decide, by decide⟩,
    C10_static_display_safe 100 50 1000 (by decide) (by decide)⟩

/-- Observable resource side effects of `Filter::new` / `Filter::update`
(filter.rs): starting the handshake task, spawning the worker pair, joining a
worker, and writing the export record (its `input` and `output` fields). -/
inductive Eff where
  | startHandshake : Eff
  | spawnReceiver (capacity : Nat) : Eff
  | spawnTransmitter : Eff
  | joinTransmitter : Eff
  | joinReceiver : Eff
  | exportWrite (input output : List Nat) : Eff
deriving Repr, DecidableEq

/-- The state owned by `Graph` (graph.rs lines 30-39): display mode, time
vector, the shared receive buffer (`filtered_data`) and the immutable input
series (`unfiltered_data`), all sample values as 32-bit float bit patterns. -/
structure GraphState where
  mode : Mode
  time : List Nat
  filtered : List Nat
  unfiltered : List Nat
deriving Repr, DecidableEq

/-- Session state (filter.rs lines 42-60). `Connected` carries the graph, the
one-shot cancellation flag, and the two optional worker handles (modelled by
`Option Unit`: present or taken). -/
inductive FState where
  | Connecting (function : String) (stop_time : ℚ) : FState
  | Connected (graph : GraphState) (cancellation_token : Bool)
      (rxHandle txHandle : Option Unit) : FState
  | Errored : FState
deriving DecidableEq

/-- Session messages (filter.rs lines 30-40). `ConnectionEstablished` carries
the negotiated sampling frequency (the code carries the serial handle and the
interval `1/frequency`); `Refresh` carries the environment's answer to
`JoinHandle::is_finished` on the receiver; `Export` carries whether the file
write and JSON encoding succeed. -/
inductive FMessage where
  | ConnectionFailed : FMessage
  | ConnectionEstablished (sampling_frequency : Nat) : FMessage
  | Graph (msg : GraphMessage) : FMessage
  | Refresh (rxFinished : Bool) : FMessage
  | Finish : FMessage
  | Export (ok : Bool) : FMessage

/-- The blocking handshake task (filter.rs lines 73-90): open the port (3 s
timeout), settle, `write_all(SYN)`, `read_exact` a 4-byte little-endian
frequency reply, switch to the 100 ms streaming read timeout; any failure
short-circuits to a single error outcome. The four parameters are the
outcomes of the four fallible steps. -/
def handshake (openR writeR setTimeoutR : Except Unit Unit)
    (readR : Except Unit (List Nat)) : Except Unit Nat := do
  let _ ← openR
  let _ ← writeR
  let buf ← readR
  let _ ← setTimeoutR
  pure (fromLeBytes buf)

/-- How `Filter::new` (filter.rs lines 102-112) turns the handshake outcome
into the message delivered to `Filter::update`: success becomes
`ConnectionEstablished`, any error becomes `ConnectionFailed`. -/
def handshakeMessage : Except Unit Nat → FMessage
  | Except.ok freq => FMessage.ConnectionEstablished freq
  | Except.error _ => FMessage.ConnectionFailed

/-- `Filter::new` (filter.rs lines 66-115): enters `Connecting` and starts the
offloaded handshake; nothing else is created here. -/
def Filter.new (function : String) (stop_time : ℚ) : FState × List Eff :=
  (FState.Connecting function stop_time, [Eff.startHandshake])

/-- `Filter::update` (filter.rs lines 119-225), as a pure transition returning
the new state, whether a fresh `Ports` screen is returned to the caller, and
the resource effects performed; `none` models an `unreachable!()` / `expect`
panic. `evaluator` stands for the external Python waveform evaluator used by
`compute_tensors` (function, stop time, frequency ↦ time and input series). -/
def Filter.update (evaluator : String → ℚ → Nat → List Nat × List Nat) :
    FState → FMessage → Option (FState × Bool × List Eff)
  | _, FMessage.ConnectionFailed => some (FState.Errored, false, [])
  | FState.Connecting function stop_time, FMessage.ConnectionEstablished freq =>
      let tensors := evaluator function stop_time freq
      some
        (FState.Connected
          { mode := Mode.Streaming, time := tensors.1,
            filtered := [], unfiltered := tensors.2 }
          false (some ()) (some ()),
        false,
        [Eff.spawnReceiver tensors.2.length, Eff.spawnTransmitter])
  | FState.Connected g _ rx tx, FMessage.Finish =>
      some (FState.Connected g true none none, true,
        (match tx with | some _ => [Eff.joinTransmitter] | none => []) ++
        (match rx with | some _ => [Eff.joinReceiver] | none => []))
  | FState.Errored, FMessage.Finish => some (FState.Errored, true, [])
  | FState.Connected g tok rx tx, FMessage.Graph msg =>
      (match Graph.update g.mode msg with
      | none => none
      | some mode' =>
          some (FState.Connected { g with mode := mode' } tok rx tx, false, []))
  | FState.Connected g tok rx tx, FMessage.Refresh rxFinished =>
      if rx.isSome && rxFinished then
        match tx with
        | none => none
        | some _ =>
            some (FState.Connected g tok none none, false,
              [Eff.joinReceiver, Eff.joinTransmitter])
      else some (FState.Connected g tok rx tx, false, [])
  | FState.Connected g tok none none, FMessage.Export _ =>
      some (FState.Connected g tok none none, false,
        [Eff.exportWrite g.unfiltered g.filtered])
  | _, _ => none

/-- Iterated `Filter::update` (resulting state only); `none` as soon as one
step panics. -/
def Filter.updates (evaluator : String → ℚ → Nat → List Nat × List Nat)
    (s : FState) : List FMessage → Option FState
  | [] => some s
  | m :: rest =>
    match Filter.update evaluator s m with
    | none => none
    | some r => Filter.updates evaluator r.1 rest

/-- `File::create` (graph.rs line 152) truncates any existing file of the same
name: after a successful export the file holds exactly the newly serialized
record, whatever it held before. -/
def fileAfterExport (prior : Option (List Nat × List Nat))
    (input output : List Nat) : Option (List Nat × List Nat) :=
  some (input, output)

/-- Once connected with input series `input`, the `unfiltered` field never
changes (`Connecting` is excluded: it cannot recur after a connection). -/
def inputInv (input : List Nat) : FState → Prop
  | FState.Connecting _ _ => False
  | FState.Connected g _ _ _ => g.unfiltered = input
  | FState.Errored => True

theorem inputInv_step (evaluator : String → ℚ → Nat → List Nat × List Nat)
    (input : List Nat) (s : FState) (m : FMessage) (r : FState × Bool × List Eff)
    (h : inputInv input s) (hstep : Filter.update evaluator s m = some r) :
    inputInv input r.1 := by
  cases s with
  | Connecting function stop_time => exact h.elim
  | Errored =>
      cases m <;> simp only [Filter.update, Option.some.injEq] at hstep <;>
        first
          | (rw [← hstep]; trivial)
          | exact absurd hstep (by simp)
  | Connected g tok rx tx =>
      cases m with
      | ConnectionFailed =>
          simp only [Filter.update, Option.some.injEq] at hstep
          rw [← hstep]
          trivial
      | ConnectionEstablished freq =>
          exact absurd hstep (by simp [Filter.update])
      | Finish =>
          simp only [Filter.update, Option.some.injEq] at hstep
          rw [← hstep]
          exact h
      | Graph msg =>
          simp only [Filter.update] at hstep
          cases hg : Graph.update g.mode msg with
          | none => rw [hg] at hstep; exact absurd hstep (by simp)
          | some mode' =>
              rw [hg] at hstep
              simp only [Option.some.injEq] at hstep
              rw [← hstep]
              exact h
      | Refresh rxFinished =>
          simp only [Filter.update] at hstep
          by_cases hc : (rx.isSome && rxFinished) = true
          · rw [if_pos hc] at hstep
            cases tx with
            | none => exact absurd hstep (by simp)
            | some u =>
                simp only [Option.some.injEq] at hstep
                rw [← hstep]
                exact h
          · rw [if_neg hc] at hstep
            simp only [Option.some.injEq] at hstep
            rw [← hstep]
            exact h
      | Export ok =>
          cases rx with
          | some u => exact absurd hstep (by simp [Filter.update])
          | none =>
              cases tx with
              | some u => exact absurd hstep (by simp [Filter.update])
              | none =>
                  simp only [Filter.update, Option.some.injEq] at hstep
                  rw [← hstep]
                  exact h

theorem inputInv_updates (evaluator : String → ℚ → Nat → List Nat × List Nat)
    (input : List Nat) (s : FState) (msgs : List FMessage) (s' : FState)
    (h : inputInv input s)
    (hrun : Filter.updates evaluator s msgs = some s') :
    inputInv input s' := by
  induction msgs generalizing s with
  | nil =>
      simp only [Filter.updates, Option.some.injEq] at hrun
      exact hrun ▸ h
  | cons m rest ih =>
      simp only [Filter.updates] at hrun
      cases hstep : Filter.update evaluator s m with
      | none => rw [hstep] at hrun; exact absurd hrun (by simp)
      | some r =>
          rw [hstep] at hrun
          exact ih r.1 (inputInv_step evaluator input s m r h hstep) hrun

/-- **C7.** If a session reaches a `Connected` state whose two worker handles
have both been reclaimed (`none`) — starting from `Connecting` and a
`ConnectionEstablished` handshake outcome, via any message sequence — then
the export operation writes a record whose `input` field equals the input
series the waveform evaluator originally generated at connection time, and
whose `output` field equals the shared buffer's contents at the moment of
export, in order; `File::create` overwrites any prior file of the same name;
and whether the write/encode succeeds or fails (`ok` arbitrary; a failure is
only logged), the resulting session state is the very state the export
started from. -/
theorem C7_export_roundtrip
    (evaluator : String → ℚ → Nat → List Nat × List Nat)
    (function : String) (stop_time : ℚ) (freq : Nat) (msgs : List FMessage)
    (g : GraphState) (tok : Bool) (ok : Bool)
    (hrun : Filter.updates evaluator (FState.Connecting function stop_time)
        (FMessage.ConnectionEstablished freq :: msgs)
        = some (FState.Connected g tok none none)) :
    Filter.update evaluator (FState.Connected g tok none none)
        (FMessage.Export ok)
      = some (FState.Connected g tok none none, false,
          [Eff.exportWrite g.unfiltered g.filtered]) ∧
    g.unfiltered = (evaluator function stop_time freq).2 ∧
    ∀ prior, fileAfterExport prior g.unfiltered g.filtered
      = some (g.unfiltered, g.filtered) := by
  refine ⟨rfl, ?_, fun prior => rfl⟩
  simp only [Filter.updates, Filter.update] at hrun
  exact inputInv_updates evaluator (evaluator function stop_time freq).2
    _ msgs _ (by simp [inputInv]) hrun

theorem C7_export_roundtrip_witness :
    (Filter.updates (fun _ _ _ => ([0], [1]))
        (FState.Connecting "sin(t)" 1)
        [FMessage.ConnectionEstablished 10, FMessage.Finish]
      = some (FState.Connected
          { mode := Mode.Streaming, time := [0], filtered := [],
            unfiltered := [1] } true none none)) ∧
    (Filter.update (fun _ _ _ => ([0], [1]))
        (FState.Connected
          { mode := Mode.Streaming, time := [0], filtered := [],
            unfiltered := [1] } true none none)
        (FMessage.Export true)
      = some (FState.Connected
          { mode := Mode.Streaming, time := [0], filtered := [],
            unfiltered := [1] } true none none, false,
          [Eff.exportWrite [1] []]) ∧
      ([1] : List Nat) = ((fun (_ : String) (_ : ℚ) (_ : Nat) => (([0], [1]) : List Nat × List Nat)) "sin(t)" 1 10).2 ∧
      ∀ prior, fileAfterExport prior [1] []
        = some (([1] : List Nat), ([] : List Nat))) :=
  ⟨rfl,
    C7_export_roundtrip (fun _ _ _ => ([0], [1])) "sin(t)" 1 10
      [FMessage.Finish]
      { mode := Mode.Streaming, time := [0], filtered := [], unfiltered := [1] }
      true true rfl⟩

theorem Filter.update_shape
    (evaluator : String → ℚ → Nat → List Nat × List Nat)
    (s : FState) (m : FMessage) (r : FState × Bool × List Eff)
    (hstep : Filter.update evaluator s m = some r) :
    Eff.startHandshake ∉ r.2.2 ∧
    ((Eff.spawnTransmitter ∈ r.2.2 ∨ ∃ c, Eff.spawnReceiver c ∈ r.2.2) →
      ∃ freq, m = FMessage.ConnectionEstablished freq) ∧
    ((∃ g tok rx tx, r.1 = FState.Connected g tok rx tx) →
      (∃ freq, m = FMessage.ConnectionEstablished freq) ∨
      ∃ g tok rx tx, s = FState.Connected g tok rx tx) := by
  cases s with
  | Connecting function stop_time =>
      cases m with
      | ConnectionFailed =>
          simp only [Filter.update, Option.some.injEq] at hstep
          rw [← hstep]
          refine ⟨by simp, by simp, ?_⟩
          rintro ⟨g, tok, rx, tx, h⟩
          exact absurd h (by simp)
      | ConnectionEstablished freq =>
          simp only [Filter.update, Option.some.injEq] at hstep
          rw [← hstep]
          exact ⟨by simp, fun _ => ⟨freq, rfl⟩, fun _ => Or.inl ⟨freq, rfl⟩⟩
      | Graph msg => exact absurd hstep (by simp [Filter.update])
      | Refresh rxFinished => exact absurd hstep (by simp [Filter.update])
      | Finish => exact absurd hstep (by simp [Filter.update])
      | Export ok => exact absurd hstep (by simp [Filter.update])
  | Errored =>
      cases m with
      | ConnectionFailed =>
          simp only [Filter.update, Option.some.injEq] at hstep
          rw [← hstep]
          refine ⟨by simp, by simp, ?_⟩
          rintro ⟨g, tok, rx, tx, h⟩
          exact absurd h (by simp)
      | ConnectionEstablished freq => exact absurd hstep (by simp [Filter.update])
      | Graph msg => exact absurd hstep (by simp [Filter.update])
      | Refresh rxFinished => exact absurd hstep (by simp [Filter.update])
      | Finish =>
          simp only [Filter.update, Option.some.injEq] at hstep
          rw [← hstep]
          refine ⟨by simp, by simp, ?_⟩
          rintro ⟨g, tok, rx, tx, h⟩
          exact absurd h (by simp)
      | Export ok => exact absurd hstep (by simp [Filter.update])
  | Connected g tok rx tx =>
      have hs : (∃ g' tok' rx' tx',
          FState.Connected g tok rx tx = FState.Connected g' tok' rx' tx') :=
        ⟨g, tok, rx, tx, rfl⟩
      cases m with
      | ConnectionFailed =>
          simp only [Filter.update, Option.some.injEq] at hstep
          rw [← hstep]
          refine ⟨by simp, by simp, ?_⟩
          rintro ⟨g', tok', rx', tx', h⟩
          exact absurd h (by simp)
      | ConnectionEstablished freq => exact absurd hstep (by simp [Filter.update])
      | Finish =>
          simp only [Filter.update, Option.some.injEq] at hstep
          rw [← hstep]
          refine ⟨?_, ?_, fun _ => Or.inr hs⟩
          · cases rx <;> cases tx <;> simp
          · cases rx <;> cases tx <;> simp
      | Graph msg =>
          simp only [Filter.update] at hstep
          cases hg : Graph.update g.mode msg with
          | none => rw [hg] at hstep; exact absurd hstep (by simp)
          | some mode' =>
              rw [hg] at hstep
              simp only [Option.some.injEq] at hstep
              rw [← hstep]
              exact ⟨by simp, by simp, fun _ => Or.inr hs⟩
      | Refresh rxFinished =>
          simp only [Filter.update] at hstep
          by_cases hc : (rx.isSome && rxFinished) = true
          · rw [if_pos hc] at hstep
            cases tx with
            | none => exact absurd hstep (by simp)
            | some u =>
                simp only [Option.some.injEq] at hstep
                rw [← hstep]
                exact ⟨by simp, by simp, fun _ => Or.inr hs⟩
          · rw [if_neg hc] at hstep
            simp only [Option.some.injEq] at hstep
            rw [← hstep]
            exact ⟨by simp, by simp, fun _ => Or.inr hs⟩
      | Export ok =>
          cases rx with
          | some u => exact absurd hstep (by simp [Filter.update])
          | none =>
              cases tx with
              | some u => exact absurd hstep (by simp [Filter.update])
              | none =>
                  simp only [Filter.update, Option.some.injEq] at hstep
                  rw [← hstep]
                  exact ⟨by simp, by simp, fun _ => Or.inr hs⟩

/-- **C6.** Every handshake failure — an error at open, at the `SYN` write, at
the frequency read (including timeout), or at the timeout switch — is mapped
to the single `ConnectionFailed` message, on which `Filter::update` moves the
session to the terminal `Errored` state from any state, producing no effect
at all: no worker is spawned, no join happens, nothing is exported, and no
`Connected` state (the owner of graph, buffer and cancellation token) is
built. Moreover, across the whole state machine, worker-spawning effects
arise only from a `ConnectionEstablished` message, a `Connected` state is
only ever produced by `ConnectionEstablished` or from an already-`Connected`
state, and no transition ever starts a new handshake (no retry). -/
theorem C6_handshake_failure (openR writeR setTimeoutR : Except Unit Unit)
    (readR : Except Unit (List Nat))
    (hfail : handshake openR writeR setTimeoutR readR = Except.error ()) :
    handshakeMessage (handshake openR writeR setTimeoutR readR)
        = FMessage.ConnectionFailed ∧
    (∀ (evaluator : String → ℚ → Nat → List Nat × List Nat) (s : FState),
      Filter.update evaluator s FMessage.ConnectionFailed
        = some (FState.Errored, false, [])) ∧
    (∀ (evaluator : String → ℚ → Nat → List Nat × List Nat) (s : FState)
        (m : FMessage) (r : FState × Bool × List Eff),
      Filter.update evaluator s m = some r →
      (Eff.spawnTransmitter ∈ r.2.2 ∨ ∃ c, Eff.spawnReceiver c ∈ r.2.2) →
      ∃ freq, m = FMessage.ConnectionEstablished freq) ∧
    (∀ (evaluator : String → ℚ → Nat → List Nat × List Nat) (s : FState)
        (m : FMessage) (r : FState × Bool × List Eff),
      Filter.update evaluator s m = some r →
      (∃ g tok rx tx, r.1 = FState.Connected g tok rx tx) →
      (∃ freq, m = FMessage.ConnectionEstablished freq) ∨
      ∃ g tok rx tx, s = FState.Connected g tok rx tx) ∧
    (∀ (evaluator : String → ℚ → Nat → List Nat × List Nat) (s : FState)
        (m : FMessage) (r : FState × Bool × List Eff),
      Filter.update evaluator s m = some r →
      Eff.startHandshake ∉ r.2.2) := by
  refine ⟨by rw [hfail]; rfl, fun evaluator s => by cases s <;> simp [Filter.update],
    fun evaluator s m r h hm => (Filter.update_shape evaluator s m r h).2.1 hm,
    fun evaluator s m r h hc => (Filter.update_shape evaluator s m r h).2.2 hc,
    fun evaluator s m r h => (Filter.update_shape evaluator s m r h).1⟩

theorem C6_handshake_failure_witness :
    handshake (Except.error ()) (Except.ok ()) (Except.ok ())
        (Except.ok EOT) = Except.error () ∧
    (handshakeMessage (handshake (Except.error ()) (Except.ok ()) (Except.ok ())
          (Except.ok EOT))
        = FMessage.ConnectionFailed ∧
      (∀ (evaluator : String → ℚ → Nat → List Nat × List Nat) (s : FState),
        Filter.update evaluator s FMessage.ConnectionFailed
          = some (FState.Errored, false, [])) ∧
      (∀ (evaluator : String → ℚ → Nat → List Nat × List Nat) (s : FState)
          (m : FMessage) (r : FState × Bool × List Eff),
        Filter.update evaluator s m = some r →
        (Eff.spawnTransmitter ∈ r.2.2 ∨ ∃ c, Eff.spawnReceiver c ∈ r.2.2) →
        ∃ freq, m = FMessage.ConnectionEstablished freq) ∧
      (∀ (evaluator : String → ℚ → Nat → List Nat × List Nat) (s : FState)
          (m : FMessage) (r : FState × Bool × List Eff),
        Filter.update evaluator s m = some r →
        (∃ g tok rx tx, r.1 = FState.Connected g tok rx tx) →
        (∃ freq, m = FMessage.ConnectionEstablished freq) ∨
        ∃ g tok rx tx, s = FState.Connected g tok rx tx) ∧
      (∀ (evaluator : String → ℚ → Nat → List Nat × List Nat) (s : FState)
          (m : FMessage) (r : FState × Bool × List Eff),
        Filter.update evaluator s m = some r →
        Eff.startHandshake ∉ r.2.2)) :=
  ⟨rfl, C6_handshake_failure (Except.error ()) (Except.ok ()) (Except.ok ())
    (Except.ok EOT) rfl⟩

/-- **C8.** The terminal finish action is idempotent at the session level:
when both worker handles have already been taken (`none`), `Finish` performs
no join (empty effect list — nothing to block on) and produces exactly the
session-state transition of the first finish (state `Connected` with the flag
set and both handles `none`, returning a fresh ports screen); the first
finish differs only by its two join effects. -/
theorem C8_finish_idempotent
    (evaluator : String → ℚ → Nat → List Nat × List Nat)
    (g : GraphState) (tok : Bool) :
    Filter.update evaluator (FState.Connected g tok none none) FMessage.Finish
      = some (FState.Connected g true none none, true, []) ∧
    Filter.update evaluator (FState.Connected g tok (some ()) (some ()))
        FMessage.Finish
      = some (FState.Connected g true none none, true,
          [Eff.joinTransmitter, Eff.joinReceiver]) :=
  ⟨rfl, rfl⟩

end OnlineFiltering
